import Mathlib

/-!
Shallow embedding of the media-query extractor and complexity scorer of
src/extractors/media-queries.mjs from the web-analysis-toolkit repository.

Modelling conventions:
* JS numbers are Nat (counts, pixel values) except the property-density
  average, which is an exact rational; for every integer range reachable
  here the JS double arithmetic is exact, so the rational reading agrees
  with the source arithmetic.
* Nullable JS values are Option; every JS truthiness test on them is made
  explicit (null and 0 are falsy, the empty string is falsy).
* JS string operations (includes, split, the two width regexes) are
  modelled over the underlying character lists.
* JS Map and plain objects used as dictionaries are association lists that
  preserve key insertion order, exactly as JS iteration order does.
-/

/-! ## Character-list string operations -/

/-- Boolean prefix test on character lists. -/
def isPrefixCL : List Char → List Char → Bool
  | [], _ => true
  | _ :: _, [] => false
  | a :: as, b :: bs => a == b && isPrefixCL as bs

/-- Substring containment test, JS String.prototype.includes. -/
def containsCL (needle : List Char) : List Char → Bool
  | [] => isPrefixCL needle []
  | c :: cs => isPrefixCL needle (c :: cs) || containsCL needle cs

/-- String.prototype.includes lifted to String. -/
def strIncludes (s sub : String) : Bool := containsCL sub.data s.data

/-- Length of the array produced by JS String.prototype.split for a
nonempty separator: one more than the number of nonoverlapping occurrences,
scanning left to right. The fuel argument is the remaining hay length,
which is always sufficient. -/
def splitLenF (sep : List Char) : Nat → List Char → Nat
  | _, [] => 1
  | 0, _ :: _ => 1
  | fuel + 1, c :: cs =>
    if isPrefixCL sep (c :: cs) then
      1 + splitLenF sep fuel (List.drop (sep.length - 1) cs)
    else
      splitLenF sep fuel cs

/-- Length of condition.split(sep). -/
def splitLen (sep hay : List Char) : Nat := splitLenF sep hay.length hay

/-- Drop leading whitespace (the \s* part of the width regexes). -/
def skipWs : List Char → List Char
  | [] => []
  | c :: cs => if c.isWhitespace then skipWs cs else c :: cs

/-- Split off the leading digit run (the greedy \d+ part). -/
def takeDigits : List Char → List Char × List Char
  | [] => ([], [])
  | c :: cs =>
    if c.isDigit then
      let r := takeDigits cs
      (c :: r.1, r.2)
    else ([], c :: cs)

/-- Decimal value of a digit run, as parseInt computes it. -/
def digitsToNat (ds : List Char) : Nat :=
  ds.foldl (fun a c => 10 * a + (c.toNat - 48)) 0

/-- After the literal key the regex allows whitespace, then captures a
nonempty digit run that must be immediately followed by the letters px. -/
def widthAfterKey (s : List Char) : Option Nat :=
  let t := skipWs s
  let p := takeDigits t
  if p.1.isEmpty then none
  else if isPrefixCL ['p', 'x'] p.2 then some (digitsToNat p.1) else none

/-- First position at which the whole pattern key, whitespace, digit run,
px matches, mirroring the JS regexes min-width:\s*(\d+)px and
max-width:\s*(\d+)px applied with String.prototype.match; returns the
captured pixel value. -/
def findWidth (key : List Char) : List Char → Option Nat
  | [] => none
  | c :: cs =>
    if isPrefixCL key (c :: cs) then
      match widthAfterKey (List.drop (key.length - 1) cs) with
      | some n => some n
      | none => findWidth key cs
    else findWidth key cs

/-! ## Data model -/

/-- One selector block inside a media query (a StyleRule of the spec). -/
structure StyleRule where
  selector : String
  properties : List (String × String)
deriving DecidableEq

/-- One media block record as built by extractMediaQueries. The JS record
initially has no matchCount field; applyFilters adds it, hence the Option
with default none. -/
structure MediaQueryRecord where
  condition : String
  rules : List StyleRule
  breakpoint : Option Nat
  type : Option String
  matchCount : Option Nat := none
deriving DecidableEq

/-- The summary object of the extraction results. The JS object also holds
a mostCommonBreakpoints array that is initialised empty and never written,
so it is omitted here. -/
structure Summary where
  totalMediaQueries : Nat
  uniqueBreakpoints : List Nat
deriving DecidableEq

/-- The results object returned by the in-page extraction. -/
structure ExtractionData where
  mediaQueries : List MediaQueryRecord
  breakpoints : List (String × List MediaQueryRecord)
  summary : Summary
deriving DecidableEq

/-- A rule nested inside a media rule: a style rule carrying selectorText
and the declaration list exposed by its style object, or anything else
(rule.type not CSSRule.STYLE_RULE). -/
inductive InnerRule where
  | style (selector : String) (decls : List (String × String))
  | other
deriving DecidableEq

/-- A top-level rule of a stylesheet: a media rule with its mediaText and
nested rules, or anything else (rule.type not CSSRule.MEDIA_RULE). -/
inductive CSSRule where
  | media (mediaText : String) (inner : List InnerRule)
  | other
deriving DecidableEq

/-- Result of reading sheet.cssRules: a cross-origin sheet throws, the
value can be absent (falsy), or an accessible rule list is returned. -/
inductive SheetAccess where
  | throws
  | noRules
  | accessible (rules : List CSSRule)
deriving DecidableEq

/-- One entry of document.styleSheets as the extraction sees it. -/
structure StyleSheet where
  href : Option String
  access : SheetAccess
deriving DecidableEq

/-! ## Association-list helpers (JS object / Map semantics) -/

/-- Assignment obj[k] = v on a string-valued object: overwrite in place if
the key exists (JS keeps the original key position), else append. -/
def setKey (k v : String) : List (String × String) → List (String × String)
  | [] => [(k, v)]
  | (k₀, v₀) :: rest => if k₀ == k then (k₀, v) :: rest else (k₀, v₀) :: setKey k v rest

/-- Map.get with the empty list standing for a missing bucket. -/
def getBucket (k : String) : List (String × List MediaQueryRecord) → List MediaQueryRecord
  | [] => []
  | (k₀, v) :: rest => if k₀ == k then v else getBucket k rest

/-- The set-if-absent-then-push pattern used on results.breakpoints. -/
def pushBucket (k : String) (mq : MediaQueryRecord) :
    List (String × List MediaQueryRecord) → List (String × List MediaQueryRecord)
  | [] => [(k, [mq])]
  | (k₀, v) :: rest =>
    if k₀ == k then (k₀, v ++ [mq]) :: rest else (k₀, v) :: pushBucket k mq rest

/-- JS Set.add: append if not already present, keeping insertion order. -/
def addSet (l : List Nat) (n : Nat) : List Nat := if n ∈ l then l else l ++ [n]

/-- Insertion step of an ascending sort. -/
def insertSorted (n : Nat) : List Nat → List Nat
  | [] => [n]
  | m :: ms => if n ≤ m then n :: m :: ms else m :: insertSorted n ms

/-- The numeric ascending sort applied to the unique breakpoint set. -/
def sortNats (l : List Nat) : List Nat := l.foldr insertSorted []

/-! ## Truthiness and key formatting -/

/-- JS truthiness of the nullable numeric breakpoint: null and 0 are falsy. -/
def truthyBp : Option Nat → Bool
  | none => false
  | some n => n != 0

/-- JS truthiness of a nullable string: null and the empty string are falsy. -/
def truthyStr : Option String → Bool
  | none => false
  | some s => s != ""

/-- Template-literal rendering of the nullable type string. -/
def optTypeStr : Option String → String
  | none => "null"
  | some t => t

/-- Template-literal rendering of the nullable breakpoint number. -/
def optBpStr : Option Nat → String
  | none => "null"
  | some n => Nat.repr n

/-- The template literal type-breakpoint used as map key. -/
def recordKey (mq : MediaQueryRecord) : String :=
  optTypeStr mq.type ++ "-" ++ optBpStr mq.breakpoint

/-! ## Extraction -/

/-- min-width regex applied to the condition text. -/
def parseMinWidth (condition : String) : Option Nat :=
  findWidth "min-width:".data condition.data

/-- max-width regex applied to the condition text. -/
def parseMaxWidth (condition : String) : Option Nat :=
  findWidth "max-width:".data condition.data

/-- The if minWidthMatch, else if maxWidthMatch classification: min-width
is checked first and at most one of the two is recorded. -/
def classify (condition : String) : Option (Nat × String) :=
  match parseMinWidth condition with
  | some n => some (n, "min-width")
  | none =>
    match parseMaxWidth condition with
    | some n => some (n, "max-width")
    | none => none

/-- Build the properties object of one style rule by iterating its
declaration list: properties[prop] = value, last write wins. -/
def buildProperties (decls : List (String × String)) : List (String × String) :=
  decls.foldl (fun m pv => setKey pv.1 pv.2 m) []

/-- Collect the nested style rules of a media rule, in order. -/
def styleRulesOf (inner : List InnerRule) : List StyleRule :=
  inner.filterMap fun ir =>
    match ir with
    | .style sel decls => some ⟨sel, buildProperties decls⟩
    | .other => none

/-- The mutable results object threaded through extraction. -/
structure ExtractState where
  breakpoints : List (String × List MediaQueryRecord)
  mediaQueries : List MediaQueryRecord
  totalMediaQueries : Nat
  uniqueBreakpoints : List Nat
deriving DecidableEq

/-- Initial extraction state. -/
def initState : ExtractState := ⟨[], [], 0, []⟩

/-- The MediaQueryRecord built for one media rule: condition text, nested
style rules, and the classified breakpoint and type. -/
def mkRecord (c : String) (inner : List InnerRule) : MediaQueryRecord :=
  { condition := c
    rules := styleRulesOf inner
    breakpoint := (classify c).map Prod.fst
    type := (classify c).map Prod.snd }

/-- Processing of one top-level rule inside the media-rule branch of the
extraction loop. -/
def processRule (st : ExtractState) (rule : CSSRule) : ExtractState :=
  match rule with
  | .other => st
  | .media c inner =>
    let mq := mkRecord c inner
    { breakpoints :=
        if truthyBp mq.breakpoint then pushBucket (recordKey mq) mq st.breakpoints
        else st.breakpoints
      mediaQueries := st.mediaQueries ++ [mq]
      totalMediaQueries := st.totalMediaQueries + 1
      uniqueBreakpoints :=
        match classify c with
        | some p => addSet st.uniqueBreakpoints p.1
        | none => st.uniqueBreakpoints }

/-- The cross-origin continue guard: sheet.href is truthy and does not
start with the page origin. -/
def skipSheetHref (origin : String) : Option String → Bool
  | none => false
  | some h => h != "" && !(h.startsWith origin)

/-- Processing of one stylesheet. The try-catch around the body means a
sheet whose rule access throws leaves the state untouched, as does a falsy
rule list or the cross-origin continue. -/
def processSheet (origin : String) (st : ExtractState) (sheet : StyleSheet) : ExtractState :=
  if skipSheetHref origin sheet.href then st
  else
    match sheet.access with
    | .throws => st
    | .noRules => st
    | .accessible rules => rules.foldl processRule st

/-- The in-page extraction over the stylesheet model, including the final
conversion of the unique-breakpoint set to a numerically sorted array. -/
def extractMediaQueries (origin : String) (sheets : List StyleSheet) : ExtractionData :=
  let st := sheets.foldl (processSheet origin) initState
  { mediaQueries := st.mediaQueries
    breakpoints := st.breakpoints
    summary :=
      { totalMediaQueries := st.totalMediaQueries
        uniqueBreakpoints := sortNats st.uniqueBreakpoints } }

/-! ## Complexity scorer -/

/-- Object.keys(rule.properties).length: the number of distinct keys. -/
def propertyCount (r : StyleRule) : Nat := (r.properties.map Prod.fst).dedup.length

/-- The per-record key of breakpointPropertyCounts: the type-breakpoint
template when the breakpoint is truthy, the string other when not. -/
def countKey (mq : MediaQueryRecord) : String :=
  if truthyBp mq.breakpoint then recordKey mq else "other"

/-- Accumulator for totalProperties and breakpointPropertyCounts. -/
structure PropAcc where
  totalProperties : Nat
  counts : List (String × Nat)
deriving DecidableEq

/-- The if-not-counts-key-set-zero initialisation. -/
def ensureKey (k : String) : List (String × Nat) → List (String × Nat)
  | [] => [(k, 0)]
  | (k₀, n) :: rest => if k₀ == k then (k₀, n) :: rest else (k₀, n) :: ensureKey k rest

/-- counts[key] += m, appending the key when absent. -/
def addToKey (k : String) (m : Nat) : List (String × Nat) → List (String × Nat)
  | [] => [(k, m)]
  | (k₀, n) :: rest => if k₀ == k then (k₀, n + m) :: rest else (k₀, n) :: addToKey k m rest

/-- Processing of one record in the property-count loop: ensure the key
exists, then add every nested rule property count to the running total and
to the bucket of the key. -/
def processPropAcc (acc : PropAcc) (mq : MediaQueryRecord) : PropAcc :=
  let key := countKey mq
  mq.rules.foldl
    (fun a r =>
      { totalProperties := a.totalProperties + propertyCount r
        counts := addToKey key (propertyCount r) a.counts })
    { acc with counts := ensureKey key acc.counts }

/-- totalProperties and breakpointPropertyCounts over the record list. -/
def propAccOf (records : List MediaQueryRecord) : PropAcc :=
  records.foldl processPropAcc ⟨0, []⟩

/-- Breakpoint-count sub-score (0 to 25 points). -/
def breakpointScore (bc : Nat) : Nat :=
  if bc = 0 then 0
  else if bc ≤ 3 then 5
  else if bc ≤ 5 then 10
  else if bc ≤ 7 then 15
  else if bc ≤ 10 then 20
  else 25

/-- Property-changes sub-score (0 to 30 points) over the average. -/
def propertyScore (avg : ℚ) : Nat :=
  if avg ≤ 5 then 5
  else if avg ≤ 15 then 12
  else if avg ≤ 30 then 20
  else 30

/-- condition.includes( and ) with more than two split parts. -/
def andClauseTest (c : String) : Bool :=
  containsCL " and ".data c.data && splitLen " and ".data c.data > 2

/-- The orientation, resolution, aspect-ratio, hover, pointer regex: an
unanchored alternation matches exactly when one of the literals occurs as
a substring. -/
def featureTest (c : String) : Bool :=
  containsCL "orientation".data c.data || containsCL "resolution".data c.data ||
    containsCL "aspect-ratio".data c.data || containsCL "hover".data c.data ||
      containsCL "pointer".data c.data

/-- The nestedOrCombinedCount loop: two independent if statements, so one
record can contribute twice. -/
def nestedCount (records : List MediaQueryRecord) : Nat :=
  records.foldl
    (fun acc mq =>
      let acc₁ := if andClauseTest mq.condition then acc + 1 else acc
      if featureTest mq.condition then acc₁ + 1 else acc₁)
    0

/-- Nested-queries sub-score (0 to 20 points). -/
def nestedScore (n : Nat) : Nat :=
  if n = 0 then 0 else if n ≤ 2 then 5 else if n ≤ 5 then 12 else 20

/-- The overlap count: all pairs of a min-width breakpoint and a max-width
breakpoint (both truthy) whose values differ by at most one pixel. -/
def overlapCountOf (records : List MediaQueryRecord) : Nat :=
  let minWidths :=
    (records.filter fun mq => mq.type == some "min-width" && truthyBp mq.breakpoint).filterMap
      fun mq => mq.breakpoint
  let maxWidths :=
    (records.filter fun mq => mq.type == some "max-width" && truthyBp mq.breakpoint).filterMap
      fun mq => mq.breakpoint
  minWidths.foldl
    (fun acc mn =>
      maxWidths.foldl
        (fun acc₂ mx => if ((mn : Int) - (mx : Int)).natAbs ≤ 1 then acc₂ + 1 else acc₂)
        acc)
    0

/-- Overlap sub-score (0 to 15 points). -/
def overlapScore (n : Nat) : Nat :=
  if n = 0 then 0 else if n ≤ 2 then 5 else if n ≤ 5 then 10 else 15

/-- Query-count sub-score (0 to 10 points); note the 2-point floor. -/
def queryCountScore (tq : Nat) : Nat :=
  if tq ≤ 10 then 2 else if tq ≤ 25 then 5 else if tq ≤ 50 then 7 else 10

/-- The complexity level if chain of the source. -/
def levelFor (score : Nat) : String :=
  if score ≤ 20 then "Simple"
  else if score ≤ 40 then "Moderate"
  else if score ≤ 60 then "Complex"
  else if score ≤ 80 then "Very Complex"
  else "Extremely Complex"

/-- The recommendation sentence attached to each level. -/
def recommendationFor (score : Nat) : String :=
  if score ≤ 20 then
    "Use basic responsive analyzer. Site has straightforward breakpoint behavior."
  else if score ≤ 40 then
    "Use standard responsive analysis tools. Site has typical mobile-first or desktop-first patterns."
  else if score ≤ 60 then
    "Use comprehensive multi-viewport analysis. Site has intricate responsive behavior."
  else if score ≤ 80 then
    "Use comprehensive analyzer with detailed breakpoint analysis. Consider iterative refinement approach."
  else
    "Site has highly complex responsive patterns. Recommend component-by-component analysis with positioning calculator."

/-- Math.round on a nonnegative value: floor of the value plus one half. -/
def jsRound (q : ℚ) : Int := Int.floor (q + 1 / 2)

/-- The breakdown object of the analysis. -/
structure Breakdown where
  breakpointCount : Nat
  propertyChangesPerBreakpoint : Int
  nestedQueries : Nat
  overlaps : Nat
  totalQueries : Nat
deriving DecidableEq

/-- One flagged problem breakpoint. -/
structure ProblemBreakpoint where
  breakpoint : String
  propertyCount : Nat
  reason : String
deriving DecidableEq

/-- The analysis object returned by calculateComplexity. -/
structure Analysis where
  score : Nat
  level : String
  recommendation : String
  breakdown : Breakdown
  problemBreakpoints : List ProblemBreakpoint
deriving DecidableEq

/-- The fixed reason string of flagged breakpoints. -/
def problemReason : String :=
  "High number of property changes - may indicate major layout shift"

/-- The object pushed onto problemBreakpoints for one flagged entry. -/
def problemEntry (kc : String × Nat) : ProblemBreakpoint :=
  { breakpoint := kc.1, propertyCount := kc.2, reason := problemReason }

/-- One step of the problem-breakpoint loop: flag an entry whose count
exceeds one and a half times the average and exceeds twenty. -/
def problemFold (avg : ℚ) (l : List ProblemBreakpoint) (kc : String × Nat) :
    List ProblemBreakpoint :=
  if (kc.2 : ℚ) > avg * 1.5 ∧ kc.2 > 20 then l ++ [problemEntry kc] else l

/-- calculateComplexity of the source: five sub-scores summed, level and
recommendation from fixed bands, problem breakpoints from the bucketed
property counts. The maxPropertiesAtBreakpoint variable of the source is
computed but never read afterwards, so it is not modelled. -/
def calculateComplexity (data : ExtractionData) : Analysis :=
  let breakpointCount := data.summary.uniqueBreakpoints.length
  let bScore := breakpointScore breakpointCount
  let acc := propAccOf data.mediaQueries
  let avg : ℚ :=
    if 0 < breakpointCount then (acc.totalProperties : ℚ) / (breakpointCount : ℚ) else 0
  let pScore := propertyScore avg
  let nested := nestedCount data.mediaQueries
  let nScore := nestedScore nested
  let overlaps := overlapCountOf data.mediaQueries
  let oScore := overlapScore overlaps
  let totalQueries := data.summary.totalMediaQueries
  let qScore := queryCountScore totalQueries
  let score := bScore + pScore + nScore + oScore + qScore
  { score := score
    level := levelFor score
    recommendation := recommendationFor score
    breakdown :=
      { breakpointCount := breakpointCount
        propertyChangesPerBreakpoint := jsRound avg
        nestedQueries := nested
        overlaps := overlaps
        totalQueries := totalQueries }
    problemBreakpoints := acc.counts.foldl (problemFold avg) [] }

/-! ## Filter stage -/

/-- The per-rule predicate of applyFilters: a loose bidirectional property
substring match and a selector substring match, each defaulting to true
when its filter is falsy. -/
def ruleMatches (pf sf : Option String) (rule : StyleRule) : Bool :=
  let matchesProperty :=
    if truthyStr pf then
      (rule.properties.map Prod.fst).any fun p =>
        strIncludes p (pf.getD "") || strIncludes (pf.getD "") p
    else true
  let matchesSelector :=
    if truthyStr sf then strIncludes rule.selector (sf.getD "") else true
  matchesProperty && matchesSelector

/-- The per-record map of applyFilters: keep the matching rules and record
their number as matchCount. -/
def filterRecord (pf sf : Option String) (mq : MediaQueryRecord) : MediaQueryRecord :=
  let filteredRules := mq.rules.filter (ruleMatches pf sf)
  { mq with rules := filteredRules, matchCount := some filteredRules.length }

/-- The final filter of applyFilters: drop records left with no rules. -/
def keepRecord (mq : MediaQueryRecord) : Bool := mq.rules.length > 0

/-- applyFilters of the source: identity when both filters are falsy, else
keep the matching rules of each record, record the match count, and drop
records left with no rules. The spread keeps every other field of the
data object unchanged. -/
def applyFilters (pf sf : Option String) (data : ExtractionData) : ExtractionData :=
  if !truthyStr pf && !truthyStr sf then data
  else
    { data with
      mediaQueries := (data.mediaQueries.map (filterRecord pf sf)).filter keepRecord }

/-! ## Claim-side definitions (formalisations of the spec wording, to be
compared with the source definitions above) -/

/-- The fixed score bands as the spec states them: at most 20 is Simple,
21 to 40 Moderate, 41 to 60 Complex, 61 to 80 Very Complex, above 80
Extremely Complex. -/
def bandLevel (score : Nat) : String :=
  if score ≤ 20 then "Simple"
  else if score ≤ 40 then "Moderate"
  else if score ≤ 60 then "Complex"
  else if score ≤ 80 then "Very Complex"
  else "Extremely Complex"

/-- Number of distinct pairs of type and breakpoint across the records, as
claim C2 words the breakpointCount metric. -/
def distinctTypeBpPairCount (records : List MediaQueryRecord) : Nat :=
  (records.filterMap fun mq =>
    mq.type.bind fun t => mq.breakpoint.map fun b => (t, b)).dedup.length

/-- Number of records whose condition satisfies the nesting disjunction,
as claim C3 words the nestedQueries metric: one per record. -/
def nestedRecordCount (records : List MediaQueryRecord) : Nat :=
  records.countP fun mq => andClauseTest mq.condition || featureTest mq.condition

/-- Total declared properties of one record, over all its nested rules. -/
def recordPropTotal (mq : MediaQueryRecord) : Nat :=
  (mq.rules.map propertyCount).sum

/-- Lookup in the counts object, zero when the key is absent. -/
def getCount (k : String) : List (String × Nat) → Nat
  | [] => 0
  | (k₀, n) :: rest => if k₀ == k then n else getCount k rest

/-! ## Shape of extracted records -/

/-- Well-formedness of one record: breakpoint and type are null together,
and the type is one of the two width strings or null. -/
def recordWellFormed (mq : MediaQueryRecord) : Prop :=
  (mq.breakpoint = none ↔ mq.type = none) ∧
    (mq.type = none ∨ mq.type = some "min-width" ∨ mq.type = some "max-width")

/-- All records of a state are well formed. -/
def mediaQueriesWF (st : ExtractState) : Prop :=
  ∀ mq ∈ st.mediaQueries, recordWellFormed mq

/-! ## Bucket-membership invariant of extraction -/

/-- Every record of the state with a truthy breakpoint is present in the
bucket its key maps to. -/
def bucketsInv (st : ExtractState) : Prop :=
  ∀ mq ∈ st.mediaQueries, truthyBp mq.breakpoint = true →
    mq ∈ getBucket (recordKey mq) st.breakpoints

/-! ## Unique-breakpoint-set invariant of extraction -/

/-- The unique-breakpoint list is duplicate free and carries exactly the
breakpoint values occurring in the record list. -/
def ubInv (st : ExtractState) : Prop :=
  st.uniqueBreakpoints.Nodup ∧
    st.uniqueBreakpoints.toFinset =
      (st.mediaQueries.filterMap fun mq => mq.breakpoint).toFinset

/-! ## Unfolding helpers for the analysis record -/

/-- The average fed to the property sub-score and to Math.round. -/
def avgOf (d : ExtractionData) : ℚ :=
  if 0 < d.summary.uniqueBreakpoints.length then
    ((propAccOf d.mediaQueries).totalProperties : ℚ) /
      (d.summary.uniqueBreakpoints.length : ℚ)
  else 0

/-! ## Concrete fixtures -/

/-- A same-origin sheet with one 768 pixel min-width media rule. -/
def sheet768 : StyleSheet :=
  { href := none
    access := .accessible [CSSRule.media "(min-width: 768px)" []] }

/-- The record extraction builds from sheet768. -/
def rec768 : MediaQueryRecord :=
  { condition := "(min-width: 768px)"
    rules := []
    breakpoint := some 768
    type := some "min-width" }

/-- A sheet whose rule access throws (cross-origin). -/
def badSheet : StyleSheet := { href := none, access := .throws }

/-- A same-origin sheet with one zero pixel min-width media rule. -/
def sheetZero : StyleSheet :=
  { href := none
    access := .accessible [CSSRule.media "(min-width: 0px)" []] }

/-- The record extraction builds from sheetZero: a non-null breakpoint of
value zero. -/
def recZero : MediaQueryRecord :=
  { condition := "(min-width: 0px)"
    rules := []
    breakpoint := some 0
    type := some "min-width" }

/-- A sheet with a min-width rule and a max-width rule sharing the 768
pixel value. -/
def sheetMinMax : StyleSheet :=
  { href := none
    access := .accessible
      [CSSRule.media "(min-width: 768px)" [], CSSRule.media "(max-width: 768px)" []] }

/-- A record whose condition has three and-joined clauses and references
the orientation feature, so it satisfies both nesting checks at once. -/
def nestedBothRecord : MediaQueryRecord :=
  { condition := "screen and (orientation: landscape) and (min-width: 600px)"
    rules := []
    breakpoint := some 600
    type := some "min-width" }

/-- Scorer input holding only nestedBothRecord. -/
def nestedBothData : ExtractionData :=
  { mediaQueries := [nestedBothRecord]
    breakpoints := [("min-width-600", [nestedBothRecord])]
    summary := { totalMediaQueries := 1, uniqueBreakpoints := [600] } }

/-- A one-property style rule. -/
def smallRule : StyleRule := { selector := ".a", properties := [("width", "1px")] }

/-- A small record at the given breakpoint with one property. -/
def smallRecord (bp : Nat) : MediaQueryRecord :=
  { condition := "(min-width: " ++ Nat.repr bp ++ "px)"
    rules := [smallRule]
    breakpoint := some bp
    type := some "min-width" }

/-- A style rule with twenty-five distinct properties. -/
def bigRule : StyleRule :=
  { selector := ".b"
    properties := (List.range 25).map fun i => ("p" ++ Nat.repr i, "v") }

/-- A record with no width clause, pooled under the other key, holding
twenty-five properties. -/
def otherRecord : MediaQueryRecord :=
  { condition := "print", rules := [bigRule], breakpoint := none, type := none }

/-- Scorer input with five one-property breakpoints and a heavy breakpoint
free record: the mean is six, so the other bucket exceeds one and a half
times the mean and the absolute floor of twenty. -/
def problemData : ExtractionData :=
  { mediaQueries :=
      [smallRecord 100, smallRecord 101, smallRecord 102, smallRecord 103, smallRecord 104,
        otherRecord]
    breakpoints := []
    summary := { totalMediaQueries := 6, uniqueBreakpoints := [100, 101, 102, 103, 104] } }

/-! ## Generic fold-invariant helper -/

/-- An invariant preserved by each step of a left fold holds of the fold. -/
theorem foldl_preserve {σ α : Type _} (P : σ → Prop) (f : σ → α → σ)
    (h : ∀ s a, P s → P (f s a)) : ∀ (l : List α) (s : σ), P s → P (l.foldl f s)
  | [], _, hs => hs
  | a :: l, s, hs => foldl_preserve P f h l (f s a) (h s a hs)

/-! ## Facts about classification -/

/-- The classification only ever produces the two width type strings. -/
theorem classify_snd (c : String) (n : Nat) (t : String)
    (h : classify c = some (n, t)) : t = "min-width" ∨ t = "max-width" := by
  unfold classify at h
  cases hmin : parseMinWidth c with
  | some m =>
    rw [hmin] at h
    simp only [Option.some.injEq, Prod.mk.injEq] at h
    exact Or.inl h.2.symm
  | none =>
    rw [hmin] at h
    cases hmax : parseMaxWidth c with
    | some m =>
      rw [hmax] at h
      simp only [Option.some.injEq, Prod.mk.injEq] at h
      exact Or.inr h.2.symm
    | none => rw [hmax] at h; exact absurd h (by simp)

/-! ## Facts about the sorting of the unique breakpoint set -/

/-- Inserting one element grows the length by one. -/
theorem insertSorted_length (n : Nat) (l : List Nat) :
    (insertSorted n l).length = l.length + 1 := by
  induction l with
  | nil => rfl
  | cons m ms ih => by_cases h : n ≤ m <;> simp [insertSorted, h, ih]

/-- Sorting preserves the length. -/
theorem sortNats_length (l : List Nat) : (sortNats l).length = l.length := by
  induction l with
  | nil => rfl
  | cons m ms ih =>
    show (insertSorted m (sortNats ms)).length = ms.length + 1
    rw [insertSorted_length, ih]

/-! ## Facts about the set-insertion on unique breakpoints -/

/-- Set insertion preserves freedom from duplicates. -/
theorem addSet_nodup (l : List Nat) (n : Nat) (h : l.Nodup) : (addSet l n).Nodup := by
  unfold addSet
  by_cases hm : n ∈ l
  · simp [hm, h]
  · simp only [hm, if_neg, if_false]
    rw [List.nodup_append]
    exact ⟨h, List.nodup_singleton n, by
      intro a ha hb
      simp only [List.mem_singleton] at hb
      subst hb
      exact hm ha⟩

/-- Set insertion inserts into the underlying finite set. -/
theorem addSet_toFinset (l : List Nat) (n : Nat) :
    (addSet l n).toFinset = insert n l.toFinset := by
  unfold addSet
  by_cases hm : n ∈ l
  · simp only [hm, if_pos]
    exact (Finset.insert_eq_self.mpr (List.mem_toFinset.mpr hm)).symm
  · simp only [hm, if_neg, if_false]
    rw [List.toFinset_append]
    simp [Finset.union_comm, Finset.insert_eq]

/-! ## Facts about the breakpoint map helpers -/

/-- Pushing onto the bucket of a key appends to the list that key maps to. -/
theorem getBucket_pushBucket_self (k : String) (mq : MediaQueryRecord)
    (l : List (String × List MediaQueryRecord)) :
    getBucket k (pushBucket k mq l) = getBucket k l ++ [mq] := by
  induction l with
  | nil => simp [pushBucket, getBucket]
  | cons hd tl ih =>
    obtain ⟨k₀, v⟩ := hd
    by_cases h : k₀ = k
    · subst h; simp [pushBucket, getBucket]
    · simp [pushBucket, getBucket, h, ih]

/-- Pushing onto one bucket leaves every other bucket unchanged. -/
theorem getBucket_pushBucket_ne (k k' : String) (mq : MediaQueryRecord)
    (l : List (String × List MediaQueryRecord)) (h : k' ≠ k) :
    getBucket k (pushBucket k' mq l) = getBucket k l := by
  induction l with
  | nil => simp [pushBucket, getBucket, h]
  | cons hd tl ih =>
    obtain ⟨k₀, v⟩ := hd
    by_cases h₀ : k₀ = k'
    · subst h₀
      simp [pushBucket, getBucket, h]
    · by_cases h₁ : k₀ = k
      · subst h₁; simp [pushBucket, getBucket, h₀]
      · simp [pushBucket, getBucket, h₀, h₁, ih]

/-- Membership in a bucket is preserved by any push. -/
theorem mem_getBucket_pushBucket (k k' : String) (mq x : MediaQueryRecord)
    (l : List (String × List MediaQueryRecord)) (hx : x ∈ getBucket k l) :
    x ∈ getBucket k (pushBucket k' mq l) := by
  by_cases h : k' = k
  · subst h
    rw [getBucket_pushBucket_self]
    exact List.mem_append_left _ hx
  · rw [getBucket_pushBucket_ne k k' mq l h]
    exact hx

/-- Every record built by the extraction is well formed. -/
theorem mkRecord_wellFormed (c : String) (inner : List InnerRule) :
    recordWellFormed (mkRecord c inner) := by
  unfold recordWellFormed mkRecord
  cases hc : classify c with
  | none => simp
  | some p =>
    obtain ⟨n, t⟩ := p
    rcases classify_snd c n t hc with h | h <;> simp [h]

/-- Rule processing preserves well-formedness of all records. -/
theorem processRule_WF (st : ExtractState) (rule : CSSRule)
    (h : mediaQueriesWF st) : mediaQueriesWF (processRule st rule) := by
  cases rule with
  | other => exact h
  | media c inner =>
    intro mq hmq
    simp only [processRule] at hmq
    rcases List.mem_append.mp hmq with h₁ | h₂
    · exact h mq h₁
    · simp only [List.mem_singleton] at h₂
      subst h₂
      exact mkRecord_wellFormed c inner

/-- Sheet processing preserves well-formedness of all records. -/
theorem processSheet_WF (origin : String) (st : ExtractState) (sheet : StyleSheet)
    (h : mediaQueriesWF st) : mediaQueriesWF (processSheet origin st sheet) := by
  unfold processSheet
  by_cases hs : skipSheetHref origin sheet.href = true
  · simp only [hs, if_pos]; exact h
  · simp only [hs, if_neg, Bool.false_eq_true, not_false_eq_true, if_false]
    cases sheet.access with
    | throws => exact h
    | noRules => exact h
    | accessible rules =>
      exact foldl_preserve mediaQueriesWF processRule (fun s a => processRule_WF s a) rules st h

/-- Rule processing preserves the bucket-membership invariant. -/
theorem processRule_buckets (st : ExtractState) (rule : CSSRule)
    (h : bucketsInv st) : bucketsInv (processRule st rule) := by
  cases rule with
  | other => exact h
  | media c inner =>
    intro mq hmq htr
    simp only [processRule] at hmq ⊢
    rcases List.mem_append.mp hmq with h₁ | h₂
    · have hb := h mq h₁ htr
      by_cases ht : truthyBp (mkRecord c inner).breakpoint = true
      · simp only [ht, if_pos]
        exact mem_getBucket_pushBucket _ _ _ _ _ hb
      · simp only [ht, if_neg, Bool.false_eq_true, not_false_eq_true, if_false]
        exact hb
    · simp only [List.mem_singleton] at h₂
      subst h₂
      simp only [htr, if_pos]
      rw [getBucket_pushBucket_self]
      exact List.mem_append_right _ (List.mem_singleton.mpr rfl)

/-- Sheet processing preserves the bucket-membership invariant. -/
theorem processSheet_buckets (origin : String) (st : ExtractState) (sheet : StyleSheet)
    (h : bucketsInv st) : bucketsInv (processSheet origin st sheet) := by
  unfold processSheet
  by_cases hs : skipSheetHref origin sheet.href = true
  · simp only [hs, if_pos]; exact h
  · simp only [hs, if_neg, Bool.false_eq_true, not_false_eq_true, if_false]
    cases sheet.access with
    | throws => exact h
    | noRules => exact h
    | accessible rules =>
      exact foldl_preserve bucketsInv processRule (fun s a => processRule_buckets s a) rules st h

/-- Rule processing preserves the unique-breakpoint-set invariant. -/
theorem processRule_ub (st : ExtractState) (rule : CSSRule)
    (h : ubInv st) : ubInv (processRule st rule) := by
  cases rule with
  | other => exact h
  | media c inner =>
    obtain ⟨hnd, hfs⟩ := h
    simp only [ubInv, processRule]
    cases hc : classify c with
    | none =>
      refine ⟨hnd, ?_⟩
      rw [List.filterMap_append, hfs]
      have : (List.filterMap (fun mq => mq.breakpoint) [mkRecord c inner]) = [] := by
        simp [mkRecord, hc]
      rw [this, List.append_nil]
    | some p =>
      refine ⟨addSet_nodup _ _ hnd, ?_⟩
      rw [addSet_toFinset, List.filterMap_append, List.toFinset_append, hfs]
      have : (List.filterMap (fun mq => mq.breakpoint) [mkRecord c inner]) = [p.1] := by
        simp [mkRecord, hc]
      rw [this]
      simp [Finset.union_comm, Finset.insert_eq]

/-- Sheet processing preserves the unique-breakpoint-set invariant. -/
theorem processSheet_ub (origin : String) (st : ExtractState) (sheet : StyleSheet)
    (h : ubInv st) : ubInv (processSheet origin st sheet) := by
  unfold processSheet
  by_cases hs : skipSheetHref origin sheet.href = true
  · simp only [hs, if_pos]; exact h
  · simp only [hs, if_neg, Bool.false_eq_true, not_false_eq_true, if_false]
    cases sheet.access with
    | throws => exact h
    | noRules => exact h
    | accessible rules =>
      exact foldl_preserve ubInv processRule (fun s a => processRule_ub s a) rules st h

/-- The length of the sorted unique-breakpoint array of an extraction
equals the number of distinct breakpoint values across its records. -/
theorem ub_length_eq (origin : String) (sheets : List StyleSheet) :
    (extractMediaQueries origin sheets).summary.uniqueBreakpoints.length =
      ((extractMediaQueries origin sheets).mediaQueries.filterMap
        fun mq => mq.breakpoint).toFinset.card := by
  have hinv : ubInv (sheets.foldl (processSheet origin) initState) :=
    foldl_preserve ubInv (processSheet origin)
      (fun s a => processSheet_ub origin s a) sheets initState
      (by constructor <;> simp [initState])
  show (sortNats (sheets.foldl (processSheet origin) initState).uniqueBreakpoints).length = _
  rw [sortNats_length]
  rw [← List.toFinset_card_of_nodup hinv.1, hinv.2]
  rfl

/-! ## Facts about the nested-query count -/

/-- The nested-count fold adds, per record, one for the and-clause test
and one for the feature test. -/
theorem nestedCount_go (records : List MediaQueryRecord) : ∀ a : Nat,
    records.foldl
      (fun acc mq =>
        let acc₁ := if andClauseTest mq.condition then acc + 1 else acc
        if featureTest mq.condition then acc₁ + 1 else acc₁) a =
      a + (records.countP fun mq => andClauseTest mq.condition) +
        (records.countP fun mq => featureTest mq.condition) := by
  induction records with
  | nil => intro a; simp
  | cons mq tl ih =>
    intro a
    simp only [List.foldl_cons, List.countP_cons]
    rw [ih]
    by_cases h₁ : andClauseTest mq.condition <;>
      by_cases h₂ : featureTest mq.condition <;>
        simp only [h₁, h₂, if_pos, if_neg, Bool.false_eq_true, not_false_eq_true, if_false,
          if_true] <;> omega

/-- The nested count is the and-clause record count plus the feature
record count. -/
theorem nestedCount_eq (records : List MediaQueryRecord) :
    nestedCount records =
      (records.countP fun mq => andClauseTest mq.condition) +
        (records.countP fun mq => featureTest mq.condition) := by
  unfold nestedCount
  rw [nestedCount_go]
  omega

/-- The score field spelled out. -/
theorem calculateComplexity_score_def (d : ExtractionData) :
    (calculateComplexity d).score =
      breakpointScore d.summary.uniqueBreakpoints.length +
        propertyScore (avgOf d) +
          nestedScore (nestedCount d.mediaQueries) +
            overlapScore (overlapCountOf d.mediaQueries) +
              queryCountScore d.summary.totalMediaQueries := rfl

/-- The level field spelled out. -/
theorem calculateComplexity_level_def (d : ExtractionData) :
    (calculateComplexity d).level = levelFor (calculateComplexity d).score := rfl

/-- The rounded average field spelled out. -/
theorem calculateComplexity_pcpb_def (d : ExtractionData) :
    (calculateComplexity d).breakdown.propertyChangesPerBreakpoint = jsRound (avgOf d) := rfl

/-- The nested-queries field spelled out. -/
theorem calculateComplexity_nested_def (d : ExtractionData) :
    (calculateComplexity d).breakdown.nestedQueries = nestedCount d.mediaQueries := rfl

/-- The breakpoint-count field spelled out. -/
theorem calculateComplexity_bc_def (d : ExtractionData) :
    (calculateComplexity d).breakdown.breakpointCount =
      d.summary.uniqueBreakpoints.length := rfl

/-! ## Bounds on the sub-scores -/

/-- The property sub-score is at least five on every average. -/
theorem propertyScore_ge (q : ℚ) : 5 ≤ propertyScore q := by
  unfold propertyScore
  split_ifs <;> omega

/-- The query-count sub-score is at least two on every count. -/
theorem queryCountScore_ge (n : Nat) : 2 ≤ queryCountScore n := by
  unfold queryCountScore
  split_ifs <;> omega

/-! ## Facts about the property-count accumulator -/

/-- Ensuring a key does not change any count. -/
theorem getCount_ensureKey (k k' : String) (c : List (String × Nat)) :
    getCount k (ensureKey k' c) = getCount k c := by
  induction c with
  | nil => by_cases h : k' = k <;> simp [ensureKey, getCount, h]
  | cons hd tl ih =>
    obtain ⟨k₀, n⟩ := hd
    by_cases h₀ : k₀ = k'
    · subst h₀; simp [ensureKey, getCount]
    · have hne : (k₀ == k') = false := by simp [h₀]
      by_cases h₁ : k₀ = k
      · subst h₁; simp [ensureKey, getCount, hne]
      · simp [ensureKey, getCount, hne, h₁, ih]

/-- Adding to a key raises exactly that count by the added amount. -/
theorem getCount_addToKey (k k' : String) (m : Nat) (c : List (String × Nat)) :
    getCount k (addToKey k' m c) = getCount k c + (if k' = k then m else 0) := by
  induction c with
  | nil => by_cases h : k' = k <;> simp [addToKey, getCount, h]
  | cons hd tl ih =>
    obtain ⟨k₀, n⟩ := hd
    by_cases h₀ : k₀ = k'
    · subst h₀
      by_cases h₁ : k₀ = k
      · subst h₁; simp [addToKey, getCount]
      · simp [addToKey, getCount, h₁]
    · have hne : (k₀ == k') = false := by simp [h₀]
      by_cases h₁ : k₀ = k
      · subst h₁
        have hne2 : ¬ k' = k₀ := fun hh => h₀ hh.symm
        simp [addToKey, getCount, hne, hne2]
      · simp [addToKey, getCount, hne, h₁, ih]

/-- The inner fold over the rules of one record: the running total grows
by the property counts, and only the bucket of the given key grows. -/
theorem propRulesFold_spec (key : String) (rules : List StyleRule) : ∀ a : PropAcc,
    (rules.foldl
      (fun a r =>
        { totalProperties := a.totalProperties + propertyCount r
          counts := addToKey key (propertyCount r) a.counts }) a).totalProperties =
      a.totalProperties + (rules.map propertyCount).sum ∧
    ∀ k, getCount k (rules.foldl
      (fun a r =>
        { totalProperties := a.totalProperties + propertyCount r
          counts := addToKey key (propertyCount r) a.counts }) a).counts =
      getCount k a.counts + (if key = k then (rules.map propertyCount).sum else 0) := by
  induction rules with
  | nil => intro a; simp
  | cons r tl ih =>
    intro a
    simp only [List.foldl_cons, List.map_cons, List.sum_cons]
    constructor
    · rw [(ih _).1]
      simp only
      omega
    · intro k
      rw [(ih _).2 k]
      simp only
      rw [getCount_addToKey]
      split_ifs <;> omega

/-- Processing one record adds its property total to the running total and
to the bucket of its key, and to no other bucket. -/
theorem processPropAcc_spec (acc : PropAcc) (mq : MediaQueryRecord) :
    (processPropAcc acc mq).totalProperties = acc.totalProperties + recordPropTotal mq ∧
    ∀ k, getCount k (processPropAcc acc mq).counts =
      getCount k acc.counts + (if countKey mq = k then recordPropTotal mq else 0) := by
  unfold processPropAcc recordPropTotal
  constructor
  · exact (propRulesFold_spec (countKey mq) mq.rules _).1
  · intro k
    rw [(propRulesFold_spec (countKey mq) mq.rules _).2 k]
    simp only
    rw [getCount_ensureKey]

/-- The total of the accumulator is the sum of all record property totals,
including the records pooled under the other key. -/
theorem propAccOf_total_go (records : List MediaQueryRecord) : ∀ acc : PropAcc,
    (records.foldl processPropAcc acc).totalProperties =
      acc.totalProperties + (records.map recordPropTotal).sum := by
  induction records with
  | nil => intro acc; simp
  | cons mq tl ih =>
    intro acc
    simp only [List.foldl_cons, List.map_cons, List.sum_cons]
    rw [ih, (processPropAcc_spec acc mq).1]
    omega

/-- totalProperties over a record list is the sum of all property totals. -/
theorem propAccOf_total (records : List MediaQueryRecord) :
    (propAccOf records).totalProperties = (records.map recordPropTotal).sum := by
  unfold propAccOf
  rw [propAccOf_total_go]
  simp

/-- Each bucket of the accumulator holds exactly the summed property
totals of the records whose key it is. -/
theorem propAccOf_getCount_go (k : String) (records : List MediaQueryRecord) :
    ∀ acc : PropAcc,
    getCount k (records.foldl processPropAcc acc).counts =
      getCount k acc.counts +
        ((records.filter fun mq => countKey mq == k).map recordPropTotal).sum := by
  induction records with
  | nil => intro acc; simp
  | cons mq tl ih =>
    intro acc
    simp only [List.foldl_cons]
    rw [ih, (processPropAcc_spec acc mq).2 k]
    by_cases h : countKey mq = k
    · have hb : (countKey mq == k) = true := by simp [h]
      simp [List.filter_cons, hb, h]
      omega
    · have hb : (countKey mq == k) = false := by simp [h]
      simp [List.filter_cons, hb, h]

/-- The bucket of a key holds the summed property totals of the records
with that key. -/
theorem propAccOf_getCount (k : String) (records : List MediaQueryRecord) :
    getCount k (propAccOf records).counts =
      ((records.filter fun mq => countKey mq == k).map recordPropTotal).sum := by
  unfold propAccOf
  rw [propAccOf_getCount_go]
  simp [getCount]

/-! ## Idempotence of the filter stage -/

/-- Filtering a list twice with one predicate equals filtering once. -/
theorem filter_idem_self {α : Type _} (p : α → Bool) (l : List α) :
    (l.filter p).filter p = l.filter p := by
  rw [List.filter_filter]
  apply List.filter_congr
  intro a _
  rw [Bool.and_self]

/-- The per-record map of the filter stage is idempotent. -/
theorem filterRecord_idem (pf sf : Option String) (mq : MediaQueryRecord) :
    filterRecord pf sf (filterRecord pf sf mq) = filterRecord pf sf mq := by
  obtain ⟨c, rs, bp, ty, mc⟩ := mq
  simp [filterRecord, filter_idem_self]

/-- Mapping and filtering a second time leaves the first result unchanged. -/
theorem filterStage_stable (pf sf : Option String) (l : List MediaQueryRecord) :
    (((l.map (filterRecord pf sf)).filter keepRecord).map
        (filterRecord pf sf)).filter keepRecord =
      (l.map (filterRecord pf sf)).filter keepRecord := by
  have hfix : ∀ x ∈ (l.map (filterRecord pf sf)).filter keepRecord,
      filterRecord pf sf x = x := by
    intro x hx
    have hx' := (List.mem_filter.mp hx).1
    obtain ⟨y, hy, hxy⟩ := List.mem_map.mp hx'
    rw [← hxy]
    exact filterRecord_idem pf sf y
  have hmap : ((l.map (filterRecord pf sf)).filter keepRecord).map (filterRecord pf sf) =
      (l.map (filterRecord pf sf)).filter keepRecord := by
    calc ((l.map (filterRecord pf sf)).filter keepRecord).map (filterRecord pf sf)
        = ((l.map (filterRecord pf sf)).filter keepRecord).map id := List.map_congr_left hfix
      _ = (l.map (filterRecord pf sf)).filter keepRecord := List.map_id _
  rw [hmap]
  apply List.filter_eq_self.mpr
  intro a ha
  exact (List.mem_filter.mp ha).2

/-! ## Claim theorems -/

/-- Claim C1, counterexample: on the empty record list the scorer returns
score 7, not 0 as the claim states, because the property-density branch
awards 5 points to an average of 0 and the query-volume branch awards 2
points to a count of 0. -/
theorem c1_counterexample :
    (calculateComplexity (extractMediaQueries "o" [])).score = 7 ∧
      (calculateComplexity (extractMediaQueries "o" [])).score ≠ 0 :=
  ⟨by decide, by decide⟩

/-- Claim C1 as amended: calling the complexity scorer on an empty record
list (no media queries, no breakpoints) does not throw and returns score
7, level Simple, a breakdown whose five fields are all zero, and an empty
problemBreakpoints list. -/
theorem c1_empty_input_amended :
    (calculateComplexity (extractMediaQueries "o" [])).score = 7 ∧
      (calculateComplexity (extractMediaQueries "o" [])).level = "Simple" ∧
      (calculateComplexity (extractMediaQueries "o" [])).breakdown =
        { breakpointCount := 0, propertyChangesPerBreakpoint := 0, nestedQueries := 0,
          overlaps := 0, totalQueries := 0 } ∧
      (calculateComplexity (extractMediaQueries "o" [])).problemBreakpoints = [] := by
  refine ⟨by decide, by decide, ?_, by decide⟩
  have h0 : avgOf (extractMediaQueries "o" []) = 0 := by
    have hlen : (extractMediaQueries "o" []).summary.uniqueBreakpoints.length = 0 := by decide
    unfold avgOf
    rw [hlen]
    norm_num
  have hpc : jsRound (avgOf (extractMediaQueries "o" [])) = 0 := by
    rw [h0]
    unfold jsRound
    norm_num
  show Breakdown.mk (extractMediaQueries "o" []).summary.uniqueBreakpoints.length
      (jsRound (avgOf (extractMediaQueries "o" [])))
      (nestedCount (extractMediaQueries "o" []).mediaQueries)
      (overlapCountOf (extractMediaQueries "o" []).mediaQueries)
      (extractMediaQueries "o" []).summary.totalMediaQueries = Breakdown.mk 0 0 0 0 0
  rw [hpc]
  decide

/-- Claim C2, counterexample: a min-width record and a max-width record
sharing the 768 pixel value yield two distinct pairs of type and
breakpoint, yet the breakdown reports breakpointCount 1, because the
unique-breakpoint set stores only the pixel values. -/
theorem c2_counterexample :
    (calculateComplexity (extractMediaQueries "o" [sheetMinMax])).breakdown.breakpointCount
        = 1 ∧
      distinctTypeBpPairCount (extractMediaQueries "o" [sheetMinMax]).mediaQueries = 2 :=
  ⟨by decide, by decide⟩

/-- Claim C2 as amended: for every extraction the breakdown field
breakpointCount equals the number of distinct breakpoint pixel values
across all records, with the type ignored, so a min-width record and a
max-width record sharing one pixel value contribute one to the count. -/
theorem c2_breakpoint_count_amended (origin : String) (sheets : List StyleSheet) :
    (calculateComplexity (extractMediaQueries origin sheets)).breakdown.breakpointCount =
      ((extractMediaQueries origin sheets).mediaQueries.filterMap
        fun mq => mq.breakpoint).toFinset.card := by
  rw [calculateComplexity_bc_def]
  exact ub_length_eq origin sheets

/-- Claim C3, counterexample: a single record whose condition has more
than two and-joined clauses and references the orientation feature
contributes two to nestedQueries, not one as the claim states. -/
theorem c3_counterexample :
    (calculateComplexity nestedBothData).breakdown.nestedQueries = 2 ∧
      nestedRecordCount nestedBothData.mediaQueries = 1 :=
  ⟨by decide, by decide⟩

/-- Claim C3 as amended: for every input the breakdown field nestedQueries
equals the number of records with more than two and-joined clauses plus
the number of records referencing an orientation, resolution,
aspect-ratio, hover or pointer feature; a record satisfying both checks
contributes two. -/
theorem c3_nested_count_amended (d : ExtractionData) :
    (calculateComplexity d).breakdown.nestedQueries =
      (d.mediaQueries.countP fun mq => andClauseTest mq.condition) +
        (d.mediaQueries.countP fun mq => featureTest mq.condition) := by
  rw [calculateComplexity_nested_def, nestedCount_eq]

/-- Claim C4, counterexample: the record extracted from a min-width 0px
rule carries the non-null breakpoint 0 but is absent from the breakpoints
map, because the grouping guard is a JS truthiness test and 0 is falsy. -/
theorem c4_counterexample :
    (extractMediaQueries "o" [sheetZero]).mediaQueries = [recZero] ∧
      recZero.breakpoint = some 0 ∧
      recZero ∉ getBucket (recordKey recZero)
        (extractMediaQueries "o" [sheetZero]).breakpoints :=
  ⟨by decide, by decide, by decide⟩

/-- Claim C4 as amended: every MediaQueryRecord produced by extraction
whose breakpoint is truthy (non-null and nonzero) is present in the
breakpoints map under the key formed from its type and breakpoint. -/
theorem c4_bucket_amended (origin : String) (sheets : List StyleSheet)
    (mq : MediaQueryRecord)
    (hmq : mq ∈ (extractMediaQueries origin sheets).mediaQueries)
    (htr : truthyBp mq.breakpoint = true) :
    mq ∈ getBucket (recordKey mq) (extractMediaQueries origin sheets).breakpoints := by
  have hinv : bucketsInv (sheets.foldl (processSheet origin) initState) :=
    foldl_preserve bucketsInv (processSheet origin)
      (fun s a => processSheet_buckets origin s a) sheets initState
      (by intro mq h; simp [initState] at h)
  exact hinv mq hmq htr

/-- Witness for the amended claim C4 at a concrete extraction. -/
theorem c4_bucket_amended_witness :
    rec768 ∈ getBucket (recordKey rec768)
      (extractMediaQueries "o" [sheet768]).breakpoints :=
  c4_bucket_amended "o" [sheet768] rec768 (by decide) (by decide)

/-- Claim C5: for every input the level returned by the scorer is the one
determined by the fixed score bands (at most 20 Simple, 21 to 40 Moderate,
41 to 60 Complex, 61 to 80 Very Complex, above 80 Extremely Complex),
consistently with the returned score. -/
theorem c5_level_band (d : ExtractionData) :
    (calculateComplexity d).level = bandLevel (calculateComplexity d).score := rfl

/-- Claim C6: the filter stage is idempotent; applying it twice with the
same property and selector filters equals applying it once, for every
record list and every pair of possibly absent filters. -/
theorem c6_filter_idem (pf sf : Option String) (d : ExtractionData) :
    applyFilters pf sf (applyFilters pf sf d) = applyFilters pf sf d := by
  unfold applyFilters
  by_cases hc : (!truthyStr pf && !truthyStr sf) = true
  · simp only [hc, if_true]
  · simp only [hc, Bool.false_eq_true, not_false_eq_true, if_neg, if_false]
    congr 1
    exact filterStage_stable pf sf d.mediaQueries

/-- Claim C7: every record produced by extraction has breakpoint null
exactly when its type is null, and the type is always min-width, max-width
or null. -/
theorem c7_classification_invariant (origin : String) (sheets : List StyleSheet)
    (mq : MediaQueryRecord)
    (hmq : mq ∈ (extractMediaQueries origin sheets).mediaQueries) :
    (mq.breakpoint = none ↔ mq.type = none) ∧
      (mq.type = none ∨ mq.type = some "min-width" ∨ mq.type = some "max-width") := by
  have hinv : mediaQueriesWF (sheets.foldl (processSheet origin) initState) :=
    foldl_preserve mediaQueriesWF (processSheet origin)
      (fun s a => processSheet_WF origin s a) sheets initState
      (by intro mq h; simp [initState] at h)
  exact hinv mq hmq

/-- Witness for claim C7 at a concrete extraction. -/
theorem c7_classification_invariant_witness :
    (rec768.breakpoint = none ↔ rec768.type = none) ∧
      (rec768.type = none ∨ rec768.type = some "min-width" ∨
        rec768.type = some "max-width") :=
  c7_classification_invariant "o" [sheet768] rec768 (by decide)

/-- Claim C8: a stylesheet whose rule access throws is skipped and the
extraction of the remaining sheets is unchanged, with no exception
reaching the caller (the embedding is a total function), so the results
reflect only the accessible sheets. -/
theorem c8_inaccessible_skip (origin : String) (xs ys : List StyleSheet)
    (sheet : StyleSheet) (h : sheet.access = SheetAccess.throws) :
    extractMediaQueries origin (xs ++ sheet :: ys) =
      extractMediaQueries origin (xs ++ ys) := by
  have hstep : ∀ st, processSheet origin st sheet = st := by
    intro st
    unfold processSheet
    rw [h]
    split <;> rfl
  unfold extractMediaQueries
  rw [List.foldl_append, List.foldl_append, List.foldl_cons, hstep]

/-- Witness for claim C8: two sheets where the second throws on rule
access give exactly the extraction of the first alone. -/
theorem c8_inaccessible_skip_witness :
    extractMediaQueries "o" [sheet768, badSheet] = extractMediaQueries "o" [sheet768] :=
  c8_inaccessible_skip "o" [sheet768] [] badSheet rfl

/-- Claim C9: the property-density sub-score is never below 5, the
query-volume sub-score is never below 2, and hence the score returned by
the scorer is at least 7 on every input, including the empty one. -/
theorem c9_score_floor :
    (∀ q : ℚ, 5 ≤ propertyScore q) ∧ (∀ tq : Nat, 2 ≤ queryCountScore tq) ∧
      ∀ d : ExtractionData, 7 ≤ (calculateComplexity d).score := by
  refine ⟨propertyScore_ge, queryCountScore_ge, fun d => ?_⟩
  rw [calculateComplexity_score_def]
  have h1 := propertyScore_ge (avgOf d)
  have h2 := queryCountScore_ge d.summary.totalMediaQueries
  omega

/-- Claim C10: records with a null breakpoint are pooled under the other
key; every bucket, the other bucket included, holds the summed property
totals of its records; the numerator of the properties-per-breakpoint
mean is the total over all records including the pooled ones while the
denominator is the number of distinct breakpoint pixel values; and the
other bucket is returned in problemBreakpoints when its property count
exceeds both one and a half times that mean and twenty. -/
theorem c10_other_bucket :
    (∀ mq : MediaQueryRecord, mq.breakpoint = none → countKey mq = "other") ∧
      (∀ records : List MediaQueryRecord,
        getCount "other" (propAccOf records).counts =
          ((records.filter fun mq => countKey mq == "other").map recordPropTotal).sum ∧
          (propAccOf records).totalProperties = (records.map recordPropTotal).sum) ∧
      (∀ (origin : String) (sheets : List StyleSheet),
        (calculateComplexity
            (extractMediaQueries origin sheets)).breakdown.propertyChangesPerBreakpoint =
          jsRound
            (if 0 < ((extractMediaQueries origin sheets).mediaQueries.filterMap
                fun mq => mq.breakpoint).toFinset.card then
              (((extractMediaQueries origin sheets).mediaQueries.map recordPropTotal).sum : ℚ) /
                ((((extractMediaQueries origin sheets).mediaQueries.filterMap
                  fun mq => mq.breakpoint).toFinset.card : Nat) : ℚ)
            else 0)) ∧
      (calculateComplexity problemData).problemBreakpoints =
        [{ breakpoint := "other", propertyCount := 25, reason := problemReason }] := by
  refine ⟨?_, ?_, ?_, ?_⟩
  · intro mq h
    simp [countKey, truthyBp, h]
  · intro records
    exact ⟨propAccOf_getCount "other" records, propAccOf_total records⟩
  · intro origin sheets
    rw [calculateComplexity_pcpb_def]
    unfold avgOf
    rw [ub_length_eq origin sheets, propAccOf_total]
  · have hcounts : (propAccOf problemData.mediaQueries).counts =
        [("min-width-100", 1), ("min-width-101", 1), ("min-width-102", 1),
          ("min-width-103", 1), ("min-width-104", 1), ("other", 25)] := by decide
    have havg : avgOf problemData = 6 := by
      have hlen : problemData.summary.uniqueBreakpoints.length = 5 := by decide
      have htot : (propAccOf problemData.mediaQueries).totalProperties = 30 := by decide
      unfold avgOf
      rw [hlen, htot]
      norm_num
    show (propAccOf problemData.mediaQueries).counts.foldl
        (problemFold (avgOf problemData)) ([] : List ProblemBreakpoint) =
      [{ breakpoint := "other", propertyCount := 25, reason := problemReason }]
    rw [hcounts, havg]
    norm_num [problemFold, problemEntry]

/-- Witness for claim C10 at concrete inputs. -/
theorem c10_other_bucket_witness :
    countKey otherRecord = "other" ∧
      (calculateComplexity problemData).problemBreakpoints =
        [{ breakpoint := "other", propertyCount := 25, reason := problemReason }] :=
  ⟨c10_other_bucket.1 otherRecord rfl, c10_other_bucket.2.2.2⟩
